import Mathlib

/-!
Shallow embedding of zefixed/GifColorReplacer (src/main.py) and proofs about
its claimed properties.

Strings and filesystem paths are modelled as `List Char`; the filesystem is
abstracted as an existence predicate `Path → Bool`; numpy uint8 frames are
grids of pixels with integer channels (numpy promotes the uint8 data to int64
for the mask arithmetic, which is exact, so plain `Int` is faithful).
-/

namespace GifColorReplacer

abbrev Str := List Char

/-- Value of a hexadecimal digit character, as accepted by Python
`int(x, 16)`: `0`-`9`, `a`-`f`, `A`-`F`. -/
def hexVal (c : Char) : Option Nat :=
  if '0' ≤ c ∧ c ≤ '9' then some (c.toNat - 48)
  else if 'a' ≤ c ∧ c ≤ 'f' then some (c.toNat - 87)
  else if 'A' ≤ c ∧ c ≤ 'F' then some (c.toNat - 55)
  else none

/-- ASCII whitespace as recognized by Python's `str.split()` and stripped by
`int()`: space, tab, newline, vertical tab, form feed, carriage return.
(Python also accepts some non-ASCII whitespace; the program's CLI inputs are
modelled as ASCII.) -/
def isPySpace (c : Char) : Bool :=
  c = ' ' || c = '\t' || c = '\n' || c = '\x0b' || c = '\x0c' || c = '\r'

/-- Python `int(s, 16)` restricted to the two-character slices taken by
`hex_to_rgb`: two hex digits give `16*hi + lo`; a sign or a whitespace
character paired with a single hex digit is also accepted by `int` (leading
sign, or stripped whitespace); everything else (for example `0x`, `__`,
double signs) raises `ValueError`, modelled as `none`. -/
def pyIntHex2 (a b : Char) : Option Int :=
  match hexVal a, hexVal b with
  | some x, some y => some (Int.ofNat (16 * x + y))
  | some x, none => if isPySpace b then some (Int.ofNat x) else none
  | none, some y =>
      if a = '+' then some (Int.ofNat y)
      else if a = '-' then some (-(Int.ofNat y))
      else if isPySpace a then some (Int.ofNat y)
      else none
  | none, none => none

/-- `int(h[0:2],16), int(h[2:4],16), int(h[4:6],16)` on a length-6 string,
the final step of `hex_to_rgb`; any other length cannot reach this step. -/
def parse6 : Str → Option (Int × Int × Int)
  | [a, b, c, d, e, f] => do
      let r ← pyIntHex2 a b
      let g ← pyIntHex2 c d
      let bl ← pyIntHex2 e f
      pure (r, g, bl)
  | _ => none

/-- `hex_to_rgb` from src/main.py lines 8-30: `lstrip("#")` removes every
leading `#`; a string of length 1 is repeated six times, length 2 three
times, length 3 twice; any other length except 6 raises
`ValueError` (`none`); finally the three two-character slices are parsed in
base 16 (a `ValueError` there is also `none`). -/
def hex_to_rgb (s : Str) : Option (Int × Int × Int) :=
  let h := s.dropWhile (· == '#')
  if h.length = 1 then parse6 (h ++ h ++ h ++ h ++ h ++ h)
  else if h.length = 2 then parse6 (h ++ h ++ h)
  else if h.length = 3 then parse6 (h ++ h)
  else if h.length = 6 then parse6 h
  else none

/-- Digit tail of Python `int(t)`: after the first digit, ASCII digits with
single underscores allowed only between digits. -/
def digitsVal : Str → Nat → Option Nat
  | [], acc => some acc
  | '_' :: c :: rest, acc =>
      if c.isDigit then digitsVal rest (acc * 10 + (c.toNat - 48)) else none
  | ['_'], _ => none
  | c :: rest, acc =>
      if c.isDigit then digitsVal rest (acc * 10 + (c.toNat - 48)) else none

/-- Unsigned part of Python `int(t)`: a nonempty ASCII digit string (with
underscore grouping); anything else raises `ValueError` (`none`). -/
def firstDigits : Str → Option Nat
  | [] => none
  | c :: rest => if c.isDigit then digitsVal rest (c.toNat - 48) else none

/-- Python `int(t)` in base 10 on a whitespace-free token (the tokens handed
to it by `str.split()` contain no whitespace): optional sign, then digits. -/
def pyIntDec (t : Str) : Option Int :=
  match t with
  | '+' :: rest => (firstDigits rest).map Int.ofNat
  | '-' :: rest => (firstDigits rest).map (fun n => -(Int.ofNat n))
  | rest => (firstDigits rest).map Int.ofNat

/-- Accumulator loop of Python `str.split()`: split on runs of whitespace,
discarding empty tokens. -/
def splitWSAux : Str → Str → List Str
  | [], acc => if acc.isEmpty then [] else [acc.reverse]
  | c :: cs, acc =>
      if isPySpace c then
        if acc.isEmpty then splitWSAux cs [] else acc.reverse :: splitWSAux cs []
      else splitWSAux cs (c :: acc)

/-- Python `str.split()` with no arguments. -/
def pySplit (s : Str) : List Str := splitWSAux s []

/-- `Option`-valued map over a list, failing on the first failure, exactly as
`tuple(map(int, tokens))` propagates the first `ValueError`. -/
def mapMOpt (f : α → Option β) : List α → Option (List β)
  | [] => some []
  | a :: l => (f a).bind fun b => (mapMOpt f l).map (b :: ·)

/-- The module-level color-argument parsing of src/main.py lines 195-208: a
string containing a space character is split on whitespace and every token is
parsed as a decimal integer — the number of tokens is not checked — otherwise
the string is parsed as hex. A `ValueError` (`none`) is caught and surfaced
as the `InvalidColorFormat` message with `exit(1)`. -/
def parseColorArg (s : Str) : Option (List Int) :=
  if s.contains ' ' then mapMOpt pyIntDec (pySplit s)
  else (hex_to_rgb s).map (fun t => [t.1, t.2.1, t.2.2])

/-- Spec-side duplication rule from C4's words, for comparison with the code:
a length-1 string is repeated six times, length-2 three times, length-3
twice, and a length-6 string is kept. -/
def dupTo6Spec (t : Str) : Str :=
  if t.length = 1 then t ++ t ++ t ++ t ++ t ++ t
  else if t.length = 2 then t ++ t ++ t
  else if t.length = 3 then t ++ t
  else t

/-! ## Frames and recoloring -/

/-- An RGB triple as passed to `replace_color_with_tolerance`. The program's
data model constrains channels to [0,255]; decimal parsing does not enforce
it. -/
structure Color where
  r : Int
  g : Int
  b : Int
deriving DecidableEq, Repr

/-- One RGBA pixel of a frame converted with `convert("RGBA")`; each channel
is a uint8 value (0-255). -/
structure Pixel where
  r : Int
  g : Int
  b : Int
  a : Int
deriving DecidableEq, Repr

/-- The mask of src/main.py lines 72-74:
`np.all(np.abs(array[:, :, :3] - np.array(target_color)) <= tolerance,
axis=-1)` — all three channels within `tolerance` of the target, inclusive
absolute difference, computed per channel in exact int64 arithmetic. -/
def matchesTarget (p : Pixel) (t : Color) (tol : Int) : Bool :=
  decide (|p.r - t.r| ≤ tol) && decide (|p.g - t.g| ≤ tol) &&
    decide (|p.b - t.b| ≤ tol)

/-- Effect of lines 76-86 on one pixel. `array[mask] = [*replacement_color,
255]` writes the replacement channels and alpha 255 into every matching
pixel. `alpha_channel = array[:, :, 3]` is a numpy *view* of the same
memory (basic indexing), so it too now holds 255 at matching pixels, and the
"restore" `array[:, :, 3] = alpha_channel` copies the plane onto itself — a
matching pixel therefore ends with alpha 255, not its original alpha.
Replacement channels are assumed in uint8 range per the data model (numpy
rejects out-of-range assignment). -/
def recolorPixel (t rep : Color) (tol : Int) (p : Pixel) : Pixel :=
  if matchesTarget p t tol then ⟨rep.r, rep.g, rep.b, 255⟩ else p

abbrev Frame := List (List Pixel)

/-- Per-frame processing of src/main.py lines 68-89: every pixel of the
RGBA-converted frame is recolored independently. -/
def recolorFrame (t rep : Color) (tol : Int) (f : Frame) : Frame :=
  f.map (fun row => row.map (recolorPixel t rep tol))

/-- The pixel of a frame at row `i`, column `j`, if present. -/
def pixelAt (f : Frame) (i j : Nat) : Option Pixel :=
  (f[i]?).bind (fun row => row[j]?)

/-- Arguments of the `frames[0].save(...)` call at src/main.py lines 97-103:
the first processed frame is the base image, the rest are appended,
`loop = 0` (which encodes looping forever in GIF) and one fixed `duration`
for every frame. -/
structure SaveCall where
  base : Frame
  appendImages : List Frame
  loop : Nat
  duration : Int
deriving Repr

/-- The frame pipeline of `replace_color_with_tolerance` (decode and encode
effects abstracted): process every frame in order, then save with the first
processed frame as base. `frames[0]` raises `IndexError` when no frame was
produced, modelled as `none`. -/
def processAnimation (frames : List Frame) (t rep : Color) (tol : Int)
    (dur : Int) : Option SaveCall :=
  match frames.map (recolorFrame t rep tol) with
  | [] => none
  | f0 :: rest => some ⟨f0, rest, 0, dur⟩

/-! ## Paths and the output namer

Paths use posix semantics (`os.path` on the platform the program documents
itself for is modelled as `posixpath`); the filesystem is an existence
predicate `ex : Path → Bool` standing for `os.path.exists`. -/

abbrev Path := List Char

/-- `os.path.isabs` (posix): the path starts with the separator. -/
def isabs (p : Path) : Bool :=
  match p with
  | '/' :: _ => true
  | _ => false

/-- `os.path.join` (posix) for two components. -/
def pjoin (a b : Path) : Path :=
  if isabs b then b
  else if a.isEmpty || a.getLast? == some '/' then a ++ b
  else a ++ '/' :: b

/-- `os.path.basename` (posix): everything after the last separator. -/
def pbasename (p : Path) : Path :=
  (p.reverse.takeWhile (fun c => c != '/')).reverse

/-- The directory prefix that `pbasename` drops, so that
`p = pdirPrefix p ++ pbasename p`. -/
def pdirPrefix (p : Path) : Path :=
  (p.reverse.dropWhile (fun c => c != '/')).reverse

/-- `os.path.splitext` on a bare filename (no separators), per CPython: split
at the last dot, unless every character before that dot is itself a dot (so
for example a lone leading dot marks a hidden file, not an extension). -/
def splitextBase (bn : Path) : Path × Path :=
  if bn.contains '.' then
    let ext := '.' :: (bn.reverse.takeWhile (fun c => c != '.')).reverse
    let pre := bn.take (bn.length - ext.length)
    if pre.any (fun c => c != '.') then (pre, ext) else (bn, [])
  else (bn, [])

/-- `os.path.splitext` (posix): the extension split only ever happens inside
the final path component. -/
def splitext (p : Path) : Path × Path :=
  let bn := pbasename p
  let sb := splitextBase bn
  (pdirPrefix p ++ sb.1, sb.2)

/-- Loop of Python `str.replace`: replace non-overlapping occurrences of
`old` left to right. The fuel starts at `s.length + 1`, which is always
enough since each step consumes at least one character of `s`; `old` is
never empty at the call sites (it is always `".gif"`). -/
def replaceAllAux : Nat → Path → Path → Path → Path
  | 0, s, _, _ => s
  | _ + 1, [], _, _ => []
  | fuel + 1, s@(c :: cs), old, new =>
      if !old.isEmpty && old.isPrefixOf s then
        new ++ replaceAllAux fuel (s.drop old.length) old new
      else c :: replaceAllAux fuel cs old new

/-- Python `str.replace(old, new)` for nonempty `old`. -/
def replaceAll (s old new : Path) : Path := replaceAllAux (s.length + 1) s old new

/-- `".gif"`. -/
def gifExt : Path := ['.', 'g', 'i', 'f']

/-- `"_processed.gif"`. -/
def processedGif : Path :=
  ['_', 'p', 'r', 'o', 'c', 'e', 's', 's', 'e', 'd', '.', 'g', 'i', 'f']

/-- The `while os.path.exists(f"{base}_{counter}{ext}")` loop of
`get_unique_filename` (src/main.py lines 126-130), starting at counter `k`;
the source loop is unbounded, so the model carries fuel and returns `none`
only when the fuel runs out before a free name is found. -/
def probeLoop (ex : Path → Bool) (base ext : Path) : Nat → Nat → Option Path
  | 0, _ => none
  | fuel + 1, k =>
      let cand := base ++ '_' :: Nat.toDigits 10 k ++ ext
      if ex cand then probeLoop ex base ext fuel (k + 1) else some cand

/-- `get_unique_filename` from src/main.py lines 107-130: split off the
extension, defaulting a missing one to `".gif"` (and appending it to the
probed base path); return the path itself when it does not exist, otherwise
the first `{base}_{counter}{ext}` with counter 1, 2, ... that does not
exist. -/
def get_unique_filename (ex : Path → Bool) (fuel : Nat) (basePath : Path) :
    Option Path :=
  let se := splitext basePath
  let ext := if se.2.isEmpty then gifExt else se.2
  let checked := if se.2.isEmpty then basePath ++ gifExt else basePath
  if ex checked then probeLoop ex se.1 ext fuel 1 else some checked

/-- Failure modes of the module-level output-path computation. -/
inductive NamerError where
  | invalidOutputName
  | fuelExhausted
deriving DecidableEq, Repr

/-- Lift the fuelled `get_unique_filename` into the namer's result type. -/
def liftProbe (r : Option Path) : Except NamerError Path :=
  match r with
  | some p => .ok p
  | none => .error .fuelExhausted

/-- The module-level output-path computation of src/main.py lines 211-255 for
one input file. `output`/`outputDir` are the `-o`/`-od` arguments (`none`
also stands for a Python-falsy empty string), `cwd` is `os.getcwd()`.
Mirrors the source: the path-separator rejection happens only in the branch
where `-o` is given and `-od` is not; each branch probes for a unique name
when the candidate exists and `--force` is not set; lines 253-255 repeat that
existence check once more on the branch's result. -/
def computeOutput (output outputDir : Option Path) (inputFile : Path)
    (force : Bool) (ex : Path → Bool) (cwd : Path) (fuel : Nat) :
    Except NamerError Path :=
  let step1 : Except NamerError Path :=
    match output, outputDir with
    | some o, none =>
        if isabs o || o.contains '\\' || o.contains '/' then
          .error .invalidOutputName
        else if ex o && !force then liftProbe (get_unique_filename ex fuel o)
        else .ok (pjoin cwd o)
    | some o, some d =>
        let og := pjoin d o
        if ex og && !force then
          liftProbe (get_unique_filename ex fuel (pjoin d o))
        else .ok og
    | none, some d =>
        let og := pjoin d (replaceAll (pbasename inputFile) gifExt processedGif)
        if ex og && !force then liftProbe (get_unique_filename ex fuel og)
        else .ok og
    | none, none =>
        let og := (splitext inputFile).1 ++ processedGif
        if ex og && !force then liftProbe (get_unique_filename ex fuel og)
        else .ok og
  match step1 with
  | .error e => .error e
  | .ok og =>
      if ex og && !force then liftProbe (get_unique_filename ex fuel og)
      else .ok og

/-! ## Theorems -/

/-- Recoloring a frame acts pixelwise: the pixel at any position of the
output is the recoloring of the input pixel at that position. -/
theorem pixelAt_recolorFrame (t rep : Color) (tol : Int) (f : Frame)
    (i j : Nat) :
    pixelAt (recolorFrame t rep tol f) i j =
      (pixelAt f i j).map (recolorPixel t rep tol) := by
  unfold pixelAt recolorFrame
  rw [List.getElem?_map]
  cases f[i]? with
  | none => rfl
  | some row => simp [List.getElem?_map]

/-- C1: For every frame and every pixel whose three RGB channels are each
within tolerance (inclusive absolute difference) of the corresponding target
channel, `replace_color_with_tolerance` overwrites that pixel's R, G, B with
the replacement color's channels and sets its alpha channel to 255,
discarding whatever alpha the pixel previously had. -/
theorem C1_matching_pixel_overwritten (t rep : Color) (tol : Int) (f : Frame)
    (i j : Nat) (p : Pixel) (hp : pixelAt f i j = some p)
    (hm : matchesTarget p t tol = true) :
    pixelAt (recolorFrame t rep tol f) i j =
      some ⟨rep.r, rep.g, rep.b, 255⟩ := by
  rw [pixelAt_recolorFrame, hp]
  simp [recolorPixel, hm]

/-- C1 at a concrete input: pixel (10,20,30,7) matches target (0,0,0) at
tolerance 30 and becomes (1,2,3,255). -/
theorem C1_matching_pixel_overwritten_witness :
    pixelAt (recolorFrame ⟨0, 0, 0⟩ ⟨1, 2, 3⟩ 30 [[⟨10, 20, 30, 7⟩]]) 0 0 =
      some ⟨1, 2, 3, 255⟩ :=
  C1_matching_pixel_overwritten ⟨0, 0, 0⟩ ⟨1, 2, 3⟩ 30 [[⟨10, 20, 30, 7⟩]] 0 0
    ⟨10, 20, 30, 7⟩ rfl (by decide)

/-- C9: A pixel that does not match the target within tolerance keeps all
four channels, including its original alpha, at the same position. -/
theorem C9_nonmatching_pixel_untouched (t rep : Color) (tol : Int) (f : Frame)
    (i j : Nat) (p : Pixel) (hp : pixelAt f i j = some p)
    (hm : matchesTarget p t tol = false) :
    pixelAt (recolorFrame t rep tol f) i j = some p := by
  rw [pixelAt_recolorFrame, hp]
  simp [recolorPixel, hm]

/-- C9 at a concrete input: pixel (200,0,0,7) does not match target (0,0,0)
at tolerance 30 and is returned untouched. -/
theorem C9_nonmatching_pixel_untouched_witness :
    pixelAt (recolorFrame ⟨0, 0, 0⟩ ⟨1, 2, 3⟩ 30 [[⟨200, 0, 0, 7⟩]]) 0 0 =
      some ⟨200, 0, 0, 7⟩ :=
  C9_nonmatching_pixel_untouched ⟨0, 0, 0⟩ ⟨1, 2, 3⟩ 30 [[⟨200, 0, 0, 7⟩]]
    0 0 ⟨200, 0, 0, 7⟩ rfl (by decide)

/-- C2 fails on the code: with target = replacement = (0,0,0) and tolerance
1, the pixel (1,0,0,0) matches and is snapped to (0,0,0,255); the claim says
every pixel value stays unchanged except the matching pixel's alpha, which
would give (1,0,0,255). -/
theorem C2_counterexample :
    recolorFrame ⟨0, 0, 0⟩ ⟨0, 0, 0⟩ 1 [[⟨1, 0, 0, 0⟩]] = [[⟨0, 0, 0, 255⟩]] ∧
    recolorFrame ⟨0, 0, 0⟩ ⟨0, 0, 0⟩ 1 [[⟨1, 0, 0, 0⟩]] ≠ [[⟨1, 0, 0, 255⟩]] := by
  decide

/-- C2 amended: with target = replacement, a matching pixel is set to the
target RGB with alpha 255 (so its RGB only stays unchanged when it already
equals the target, as is forced at tolerance 0), and a non-matching pixel is
left untouched. -/
theorem C2_target_eq_replacement (t : Color) (tol : Int) (f : Frame)
    (i j : Nat) (p : Pixel) (hp : pixelAt f i j = some p) :
    (matchesTarget p t tol = true →
      pixelAt (recolorFrame t t tol f) i j = some ⟨t.r, t.g, t.b, 255⟩) ∧
    (matchesTarget p t tol = false →
      pixelAt (recolorFrame t t tol f) i j = some p) ∧
    (tol = 0 → matchesTarget p t tol = true →
      p.r = t.r ∧ p.g = t.g ∧ p.b = t.b ∧
      pixelAt (recolorFrame t t tol f) i j = some ⟨p.r, p.g, p.b, 255⟩) := by
  refine ⟨?_, ?_, ?_⟩
  · intro hm
    rw [pixelAt_recolorFrame, hp]
    simp [recolorPixel, hm]
  · intro hm
    rw [pixelAt_recolorFrame, hp]
    simp [recolorPixel, hm]
  · intro htol hm
    subst htol
    have hch : p.r = t.r ∧ p.g = t.g ∧ p.b = t.b := by
      simp only [matchesTarget, Bool.and_eq_true, decide_eq_true_eq] at hm
      obtain ⟨⟨h1, h2⟩, h3⟩ := hm
      rw [abs_nonpos_iff, sub_eq_zero] at h1 h2 h3
      exact ⟨h1, h2, h3⟩
    refine ⟨hch.1, hch.2.1, hch.2.2, ?_⟩
    rw [pixelAt_recolorFrame, hp, hch.1, hch.2.1, hch.2.2]
    simp [recolorPixel, hm]

/-- C2 amended, at a concrete input: target = replacement = (5,5,5),
tolerance 0, pixel (5,5,5,0) becomes (5,5,5,255). -/
theorem C2_target_eq_replacement_witness :
    pixelAt (recolorFrame ⟨5, 5, 5⟩ ⟨5, 5, 5⟩ 0 [[⟨5, 5, 5, 0⟩]]) 0 0 =
      some ⟨5, 5, 5, 255⟩ :=
  (C2_target_eq_replacement ⟨5, 5, 5⟩ 0 [[⟨5, 5, 5, 0⟩]] 0 0 ⟨5, 5, 5, 0⟩
    rfl).1 (by decide)

/-- C3: a pixel is replaced exactly when each of the three channel-wise
absolute differences from the target is at most the tolerance (independent
per-channel test, no combined Euclidean distance); differences all exactly
equal to the tolerance are replaced, and exceeding the tolerance by one unit
in any single channel prevents replacement. -/
theorem C3_per_channel_test (p : Pixel) (t rep : Color) (tol : Int) :
    (matchesTarget p t tol = true ↔
      (|p.r - t.r| ≤ tol ∧ |p.g - t.g| ≤ tol ∧ |p.b - t.b| ≤ tol)) ∧
    ((|p.r - t.r| = tol ∧ |p.g - t.g| = tol ∧ |p.b - t.b| = tol) →
      recolorPixel t rep tol p = ⟨rep.r, rep.g, rep.b, 255⟩) ∧
    (|p.r - t.r| = tol + 1 → recolorPixel t rep tol p = p) ∧
    (|p.g - t.g| = tol + 1 → recolorPixel t rep tol p = p) ∧
    (|p.b - t.b| = tol + 1 → recolorPixel t rep tol p = p) := by
  have hiff : matchesTarget p t tol = true ↔
      (|p.r - t.r| ≤ tol ∧ |p.g - t.g| ≤ tol ∧ |p.b - t.b| ≤ tol) := by
    simp [matchesTarget, and_assoc]
  refine ⟨hiff, ?_, ?_, ?_, ?_⟩
  · rintro ⟨h1, h2, h3⟩
    simp [recolorPixel, hiff.mpr ⟨le_of_eq h1, le_of_eq h2, le_of_eq h3⟩]
  · intro h
    have hf : matchesTarget p t tol = false := by
      rw [← Bool.not_eq_true, hiff]
      rintro ⟨h1, h2, h3⟩
      rw [h] at h1
      omega
    simp [recolorPixel, hf]
  · intro h
    have hf : matchesTarget p t tol = false := by
      rw [← Bool.not_eq_true, hiff]
      rintro ⟨h1, h2, h3⟩
      rw [h] at h2
      omega
    simp [recolorPixel, hf]
  · intro h
    have hf : matchesTarget p t tol = false := by
      rw [← Bool.not_eq_true, hiff]
      rintro ⟨h1, h2, h3⟩
      rw [h] at h3
      omega
    simp [recolorPixel, hf]

/-- C3 at concrete inputs: with target (0,0,0) and tolerance 30, the pixel
(30,30,30,5) (all differences exactly 30) is replaced and the pixel
(31,0,0,5) (one unit over in R) is not. -/
theorem C3_per_channel_test_witness :
    recolorPixel ⟨0, 0, 0⟩ ⟨9, 9, 9⟩ 30 ⟨30, 30, 30, 5⟩ = ⟨9, 9, 9, 255⟩ ∧
    recolorPixel ⟨0, 0, 0⟩ ⟨9, 9, 9⟩ 30 ⟨31, 0, 0, 5⟩ = ⟨31, 0, 0, 5⟩ :=
  ⟨(C3_per_channel_test ⟨30, 30, 30, 5⟩ ⟨0, 0, 0⟩ ⟨9, 9, 9⟩ 30).2.1
      (by decide),
   (C3_per_channel_test ⟨31, 0, 0, 5⟩ ⟨0, 0, 0⟩ ⟨9, 9, 9⟩ 30).2.2.1
      (by decide)⟩

/-- A character with a hex-digit value is not the stripped `#`. -/
theorem hexVal_ne_hash (c : Char) (h : (hexVal c).isSome = true) : c ≠ '#' := by
  intro he
  subst he
  exact absurd h (by decide)

/-- `lstrip("#")` leaves a string with no `#` unchanged. -/
theorem dropHash_of_no_hash (t : Str) (h : ∀ c ∈ t, c ≠ '#') :
    t.dropWhile (· == '#') = t := by
  cases t with
  | nil => rfl
  | cons c cs =>
      have hc : (c == '#') = false := by
        simp only [beq_eq_false_iff_ne, ne_eq]
        exact h c (List.mem_cons_self c cs)
      simp [List.dropWhile, hc]

/-- Parsing a 6-character string of hex digits as three channels succeeds. -/
theorem parse6_isSome_of_hex (l : Str) (hlen : l.length = 6)
    (h : ∀ c ∈ l, (hexVal c).isSome = true) : (parse6 l).isSome = true := by
  rcases l with _ | ⟨a, _ | ⟨b, _ | ⟨c, _ | ⟨d, _ | ⟨e, _ | ⟨f, rest⟩⟩⟩⟩⟩⟩ <;>
    simp only [List.length_cons, List.length_nil] at hlen <;> try omega
  have hrest : rest = [] := List.length_eq_zero.mp (by omega)
  subst hrest
  obtain ⟨x1, h1⟩ := Option.isSome_iff_exists.mp (h a (by simp))
  obtain ⟨x2, h2⟩ := Option.isSome_iff_exists.mp (h b (by simp))
  obtain ⟨x3, h3⟩ := Option.isSome_iff_exists.mp (h c (by simp))
  obtain ⟨x4, h4⟩ := Option.isSome_iff_exists.mp (h d (by simp))
  obtain ⟨x5, h5⟩ := Option.isSome_iff_exists.mp (h e (by simp))
  obtain ⟨x6, h6⟩ := Option.isSome_iff_exists.mp (h f (by simp))
  simp [parse6, pyIntHex2, h1, h2, h3, h4, h5, h6]

/-- Every character of the duplicated string comes from the original. -/
theorem mem_dupTo6Spec (t : Str) (c : Char) (hc : c ∈ dupTo6Spec t) : c ∈ t := by
  unfold dupTo6Spec at hc
  split at hc
  · simp only [List.mem_append] at hc
    tauto
  · split at hc
    · simp only [List.mem_append] at hc
      tauto
    · split at hc
      · simp only [List.mem_append] at hc
        tauto
      · exact hc

/-- C4: for every hex string — optional `#` prefix, then hex digits — of
stripped length 1, 2, 3 or 6, `hex_to_rgb` returns the 3-tuple obtained by
duplicating the stripped string to length 6 and splitting it into three
2-hex-digit channels; any other stripped length fails with
`InvalidColorFormat` (`ValueError`); `"A"` and `"a"` give (170,170,170). -/
theorem C4_hex_parsing (t : Str) (pre : Bool)
    (hhex : ∀ c ∈ t, (hexVal c).isSome = true) :
    (t.length = 1 ∨ t.length = 2 ∨ t.length = 3 ∨ t.length = 6 →
      hex_to_rgb (if pre then '#' :: t else t) = parse6 (dupTo6Spec t) ∧
      (parse6 (dupTo6Spec t)).isSome = true) ∧
    (¬(t.length = 1 ∨ t.length = 2 ∨ t.length = 3 ∨ t.length = 6) →
      hex_to_rgb (if pre then '#' :: t else t) = none) ∧
    hex_to_rgb ['A'] = some (170, 170, 170) ∧
    hex_to_rgb ['a'] = some (170, 170, 170) := by
  have hnohash : ∀ c ∈ t, c ≠ '#' := fun c hc => hexVal_ne_hash c (hhex c hc)
  have hdrop : (if pre then '#' :: t else t).dropWhile (· == '#') = t := by
    cases pre with
    | false => exact dropHash_of_no_hash t hnohash
    | true =>
        simp only [if_true, List.dropWhile_cons]
        rw [if_pos (by decide)]
        exact dropHash_of_no_hash t hnohash
  have hdup : ∀ c ∈ dupTo6Spec t, (hexVal c).isSome = true :=
    fun c hc => hhex c (mem_dupTo6Spec t c hc)
  refine ⟨?_, ?_, by decide, by decide⟩
  · intro hl
    have hlen6 : (dupTo6Spec t).length = 6 := by
      rcases hl with h | h | h | h <;>
        simp [dupTo6Spec, h, List.length_append]
    refine ⟨?_, parse6_isSome_of_hex _ hlen6 hdup⟩
    simp only [hex_to_rgb]
    rw [hdrop]
    rcases hl with h | h | h | h <;>
      simp [dupTo6Spec, h, List.append_assoc]
  · intro hl
    push_neg at hl
    obtain ⟨h1, h2, h3, h6⟩ := hl
    simp only [hex_to_rgb]
    rw [hdrop, if_neg h1, if_neg h2, if_neg h3, if_neg h6]

/-- C4 at concrete inputs: `"#12"` parses via duplication of `"12"`, and the
length-4 string `"#abcd"` fails. -/
theorem C4_hex_parsing_witness :
    (hex_to_rgb ['#', '1', '2'] = parse6 (dupTo6Spec ['1', '2']) ∧
      (parse6 (dupTo6Spec ['1', '2'])).isSome = true) ∧
    hex_to_rgb ['#', 'a', 'b', 'c', 'd'] = none :=
  ⟨(C4_hex_parsing ['1', '2'] true (by decide)).1 (by decide),
   (C4_hex_parsing ['a', 'b', 'c', 'd'] true (by decide)).2.1 (by decide)⟩

/-- `mapMOpt` fails exactly when it hits a failing element. -/
theorem mapMOpt_eq_none_iff (f : α → Option β) (l : List α) :
    mapMOpt f l = none ↔ ∃ a ∈ l, f a = none := by
  induction l with
  | nil => simp [mapMOpt]
  | cons a l ih =>
      simp only [mapMOpt, List.mem_cons]
      cases hfa : f a with
      | none =>
          simp only [Option.none_bind]
          exact iff_of_true (by simp) ⟨a, Or.inl rfl, hfa⟩
      | some b =>
          simp only [Option.some_bind]
          rw [Option.map_eq_none', ih]
          constructor
          · rintro ⟨x, hx, hfx⟩
            exact ⟨x, Or.inr hx, hfx⟩
          · rintro ⟨x, hx, hfx⟩
            rcases hx with rfl | hx
            · rw [hfa] at hfx
              cases hfx
            · exact ⟨x, hx, hfx⟩

/-- C5 fails on the code: `"1 2"` contains a space and splits into two
integer tokens, and parsing succeeds with the pair (1, 2) — the token count
is never checked — while the claim requires an `InvalidColorFormat`
failure. -/
theorem C5_counterexample :
    parseColorArg ['1', ' ', '2'] = some [1, 2] ∧
    parseColorArg ['1', ' ', '2'] ≠ none := by decide

/-- C5 amended: a color argument containing a space character is parsed as
whitespace-separated decimal integers, but the number of tokens is not
validated: parsing fails (`InvalidColorFormat`) exactly when some token is
not parseable as an integer, and for example four integer tokens parse
successfully into a 4-tuple. -/
theorem C5_decimal_path (s : Str) (hs : s.contains ' ' = true) :
    parseColorArg s = mapMOpt pyIntDec (pySplit s) ∧
    (parseColorArg s = none ↔ ∃ tk ∈ pySplit s, pyIntDec tk = none) ∧
    parseColorArg ['1', ' ', '2', ' ', '3', ' ', '4'] = some [1, 2, 3, 4] := by
  have heq : parseColorArg s = mapMOpt pyIntDec (pySplit s) := by
    unfold parseColorArg
    rw [if_pos hs]
  exact ⟨heq, by rw [heq]; exact mapMOpt_eq_none_iff pyIntDec (pySplit s),
    by decide⟩

/-- C5 amended, at a concrete input: `"1 x"` takes the decimal path and fails
because `"x"` is not an integer. -/
theorem C5_decimal_path_witness :
    parseColorArg ['1', ' ', 'x'] = none ↔
      ∃ tk ∈ pySplit ['1', ' ', 'x'], pyIntDec tk = none :=
  (C5_decimal_path ['1', ' ', 'x'] (by decide)).2.1

/-- C6 fails on the code: when both `-o` and `-od` are given, the
path-separator check is skipped — `-o "a/b"` with `-od "d"` is accepted and
the destination `d/a/b` is computed instead of the `InvalidOutputName`
rejection the claim requires. -/
theorem C6_counterexample :
    computeOutput (some ['a', '/', 'b']) (some ['d']) ['i', 'n'] false
        (fun _ => false) ['/', 'c'] 5 = .ok ['d', '/', 'a', '/', 'b'] ∧
    computeOutput (some ['a', '/', 'b']) (some ['d']) ['i', 'n'] false
        (fun _ => false) ['/', 'c'] 5 ≠ .error .invalidOutputName := by
  refine ⟨rfl, ?_⟩
  intro h
  rw [show computeOutput (some ['a', '/', 'b']) (some ['d']) ['i', 'n'] false
      (fun _ => false) ['/', 'c'] 5 = .ok ['d', '/', 'a', '/', 'b'] from rfl]
    at h
  exact Except.noConfusion h

/-- C6 amended: an `-o` value containing `/` or `\` is rejected with
`InvalidOutputName` when `--output-dir` is not given; the code skips this
check when both options are given. -/
theorem C6_separator_rejection (o inputFile : Path) (force : Bool)
    (ex : Path → Bool) (cwd : Path) (fuel : Nat)
    (hsep : o.contains '/' = true ∨ o.contains '\\' = true) :
    computeOutput (some o) none inputFile force ex cwd fuel =
      .error .invalidOutputName := by
  have hcond : (isabs o || o.contains '\\' || o.contains '/') = true := by
    rcases hsep with h | h <;> simp at h <;> simp [h]
  simp only [computeOutput]
  rw [if_pos hcond]

/-- C6 amended, at a concrete input: `-o "x/y"` without `-od` is rejected. -/
theorem C6_separator_rejection_witness :
    computeOutput (some ['x', '/', 'y']) none ['i', 'n'] false
      (fun _ => false) ['/', 'c'] 5 = .error .invalidOutputName :=
  C6_separator_rejection ['x', '/', 'y'] ['i', 'n'] false (fun _ => false)
    ['/', 'c'] 5 (Or.inl (by decide))

/-- The probing loop returns the first free candidate: if every candidate
from `j` up to (but excluding) `k` is taken and candidate `k` is free, the
loop starting at `j` with enough fuel returns candidate `k`. -/
theorem probeLoop_first_free (ex : Path → Bool) (base ext : Path) :
    ∀ (fuel k j : Nat), j ≤ k → k < j + fuel →
      (∀ i, j ≤ i → i < k →
        ex (base ++ '_' :: Nat.toDigits 10 i ++ ext) = true) →
      ex (base ++ '_' :: Nat.toDigits 10 k ++ ext) = false →
      probeLoop ex base ext fuel j =
        some (base ++ '_' :: Nat.toDigits 10 k ++ ext) := by
  intro fuel
  induction fuel with
  | zero =>
      intro k j hjk hk _ _
      omega
  | succ fuel ih =>
      intro k j hjk hk hbusy hfree
      by_cases hj : j = k
      · subst hj
        simp only [probeLoop]
        rw [if_neg (by rw [hfree]; exact Bool.false_ne_true)]
      · have hbj : ex (base ++ '_' :: Nat.toDigits 10 j ++ ext) = true :=
          hbusy j le_rfl (by omega)
        simp only [probeLoop, hbj, if_true]
        exact ih k (j + 1) (by omega) (by omega)
          (fun i hi1 hi2 => hbusy i (by omega) hi2) hfree

/-- C7: with force unset and an existing destination carrying an extension,
the namer probes `_1, _2, ...` in order, inserted between stem and
extension, and returns the first candidate that does not exist; with force
set, collision probing is skipped entirely — the computed destination is
used and the result does not depend on the filesystem at all. -/
theorem C7_collision_probing (ex : Path → Bool) (p base ext : Path)
    (fuel k : Nat) (hsplit : splitext p = (base, ext)) (hext : ext ≠ [])
    (hexists : ex p = true) (hk : 1 ≤ k)
    (hbusy : ∀ i, 1 ≤ i → i < k →
      ex (base ++ '_' :: Nat.toDigits 10 i ++ ext) = true)
    (hfree : ex (base ++ '_' :: Nat.toDigits 10 k ++ ext) = false)
    (hfuel : k ≤ fuel) :
    get_unique_filename ex fuel p =
      some (base ++ '_' :: Nat.toDigits 10 k ++ ext) ∧
    (∀ (output outputDir : Option Path) (inputFile cwd : Path)
        (ex2 : Path → Bool),
      computeOutput output outputDir inputFile true ex2 cwd fuel =
        computeOutput output outputDir inputFile false (fun _ => false) cwd
          fuel) := by
  constructor
  · have hne : ext.isEmpty = false := by
      cases ext with
      | nil => exact absurd rfl hext
      | cons c cs => rfl
    simp only [get_unique_filename, hsplit, hne, Bool.false_eq_true,
      if_false, hexists, if_true]
    exact probeLoop_first_free ex base ext fuel k 1 hk (by omega) hbusy hfree
  · intro output outputDir inputFile cwd ex2
    cases output with
    | none => cases outputDir <;> simp [computeOutput]
    | some o =>
        cases outputDir with
        | some d => simp [computeOutput]
        | none =>
            cases hc : (isabs o || o.contains '\\' || o.contains '/') <;>
              simp [computeOutput, hc]

/-- C7 at concrete inputs: with `"a.gif"` existing, the namer returns
`"a_1.gif"`; with `"a_1.gif"` also existing, it returns `"a_2.gif"`. -/
theorem C7_collision_probing_witness :
    get_unique_filename (fun q => q == ['a', '.', 'g', 'i', 'f']) 3
        ['a', '.', 'g', 'i', 'f'] =
      some ['a', '_', '1', '.', 'g', 'i', 'f'] ∧
    get_unique_filename
        (fun q => q == ['a', '.', 'g', 'i', 'f'] ||
          q == ['a', '_', '1', '.', 'g', 'i', 'f']) 3
        ['a', '.', 'g', 'i', 'f'] =
      some ['a', '_', '2', '.', 'g', 'i', 'f'] :=
  ⟨(C7_collision_probing (fun q => q == ['a', '.', 'g', 'i', 'f'])
      ['a', '.', 'g', 'i', 'f'] ['a'] ['.', 'g', 'i', 'f'] 3 1 (by decide)
      (by decide) (by decide) le_rfl (by intro i h1 h2; omega) (by decide)
      (by omega)).1,
   (C7_collision_probing
      (fun q => q == ['a', '.', 'g', 'i', 'f'] ||
        q == ['a', '_', '1', '.', 'g', 'i', 'f'])
      ['a', '.', 'g', 'i', 'f'] ['a'] ['.', 'g', 'i', 'f'] 3 2 (by decide)
      (by decide) (by decide) (by omega)
      (by
        intro i h1 h2
        have hi : i = 1 := by omega
        subst hi
        decide)
      (by decide) (by omega)).1⟩

/-- The directory prefix and the basename reassemble the path. -/
theorem dirPrefix_append_basename (p : Path) :
    pdirPrefix p ++ pbasename p = p := by
  unfold pdirPrefix pbasename
  rw [← List.reverse_append, List.takeWhile_append_dropWhile,
    List.reverse_reverse]

/-- When `splitextBase` finds no extension, it returns the whole name. -/
theorem splitextBase_of_snd_empty (bn : Path)
    (h : (splitextBase bn).2 = []) : (splitextBase bn).1 = bn := by
  simp only [splitextBase] at h ⊢
  split at h
  · rename_i hc1
    split at h
    · simp at h
    · rename_i hc2
      rw [if_pos hc1, if_neg hc2]
  · rename_i hc1
    rw [if_neg hc1]

/-- C10: when the final component of the base path has no extension,
`get_unique_filename` appends `".gif"` first and runs its existence check
and collision probing against the `".gif"`-suffixed names: the probed
candidates are `base_1.gif`, `base_2.gif`, ..., the returned path always
carries the extension, and the counter sits between stem and extension. -/
theorem C10_extensionless_base (ex : Path → Bool) (p : Path) (fuel k : Nat)
    (hnoext : (splitext p).2 = []) :
    (ex (p ++ gifExt) = false →
      get_unique_filename ex fuel p = some (p ++ gifExt)) ∧
    (ex (p ++ gifExt) = true → 1 ≤ k → k ≤ fuel →
      (∀ i, 1 ≤ i → i < k →
        ex (p ++ '_' :: Nat.toDigits 10 i ++ gifExt) = true) →
      ex (p ++ '_' :: Nat.toDigits 10 k ++ gifExt) = false →
      get_unique_filename ex fuel p =
        some (p ++ '_' :: Nat.toDigits 10 k ++ gifExt)) := by
  have h2 : (splitextBase (pbasename p)).2 = [] := by
    simpa [splitext] using hnoext
  have hfst : (splitext p).1 = p := by
    simp [splitext, splitextBase_of_snd_empty (pbasename p) h2,
      dirPrefix_append_basename]
  have hse : splitext p = (p, []) := by
    rw [Prod.ext_iff]
    exact ⟨hfst, hnoext⟩
  constructor
  · intro hnex
    simp [get_unique_filename, hse, hnex]
  · intro hex hk hfuel hbusy hfree
    simp only [get_unique_filename, hse, List.isEmpty_nil, if_true, hex]
    exact probeLoop_first_free ex p gifExt fuel k 1 hk (by omega) hbusy hfree

/-- C10 at a concrete input: `"b"` has no extension; `"b.gif"` exists, so
the namer returns `"b_1.gif"`. -/
theorem C10_extensionless_base_witness :
    get_unique_filename (fun q => q == ['b', '.', 'g', 'i', 'f']) 3 ['b'] =
      some ['b', '_', '1', '.', 'g', 'i', 'f'] :=
  (C10_extensionless_base (fun q => q == ['b', '.', 'g', 'i', 'f']) ['b'] 3 1
    (by decide)).2 (by decide) le_rfl (by omega) (by intro i h1 h2; omega)
    (by decide)

/-- C8: for a decoded animation with at least one frame, the processed
sequence has the same number of frames in the same order and each frame
keeps its dimensions; the save call uses the first processed frame as the
base image, loop count 0 (loop forever) and the single caller-supplied
duration for every frame, ignoring source timings. -/
theorem C8_output_shape (frames : List Frame) (f0 : Frame)
    (rest : List Frame) (t rep : Color) (tol dur : Int)
    (hframes : frames = f0 :: rest) :
    ∃ sc : SaveCall,
      processAnimation frames t rep tol dur = some sc ∧
      sc.base :: sc.appendImages = frames.map (recolorFrame t rep tol) ∧
      (sc.base :: sc.appendImages).length = frames.length ∧
      (∀ g ∈ frames, (recolorFrame t rep tol g).length = g.length ∧
        (recolorFrame t rep tol g).map List.length = g.map List.length) ∧
      sc.loop = 0 ∧ sc.duration = dur ∧
      sc.base = recolorFrame t rep tol f0 := by
  subst hframes
  use ⟨recolorFrame t rep tol f0, rest.map (recolorFrame t rep tol), 0, dur⟩
  refine ⟨?_, ?_, ?_, ?_, ?_, ?_, ?_⟩
  · simp [processAnimation]
  · rfl
  · simp
  · intro g hg
    refine ⟨by simp [recolorFrame], ?_⟩
    simp [recolorFrame, List.map_map, Function.comp]
  · rfl
  · rfl
  · rfl

/-- C8 at a concrete input: a one-frame, one-pixel animation. -/
theorem C8_output_shape_witness :
    ∃ sc : SaveCall,
      processAnimation ([[[⟨0, 0, 0, 0⟩]]] : List Frame) ⟨0, 0, 0⟩ ⟨1, 1, 1⟩
          30 100 = some sc ∧
      sc.base :: sc.appendImages =
        ([[[⟨0, 0, 0, 0⟩]]] : List Frame).map
          (recolorFrame ⟨0, 0, 0⟩ ⟨1, 1, 1⟩ 30) ∧
      (sc.base :: sc.appendImages).length =
        ([[[⟨0, 0, 0, 0⟩]]] : List Frame).length ∧
      (∀ g ∈ ([[[⟨0, 0, 0, 0⟩]]] : List Frame),
        (recolorFrame ⟨0, 0, 0⟩ ⟨1, 1, 1⟩ 30 g).length = g.length ∧
        (recolorFrame ⟨0, 0, 0⟩ ⟨1, 1, 1⟩ 30 g).map List.length =
          g.map List.length) ∧
      sc.loop = 0 ∧ sc.duration = 100 ∧
      sc.base = recolorFrame ⟨0, 0, 0⟩ ⟨1, 1, 1⟩ 30 [[⟨0, 0, 0, 0⟩]] :=
  C8_output_shape [[[⟨0, 0, 0, 0⟩]]] [[⟨0, 0, 0, 0⟩]] [] ⟨0, 0, 0⟩ ⟨1, 1, 1⟩
    30 100 rfl

end GifColorReplacer
